import Mathlib

/-!
Verification of the adaptive-staircase and RSVP stream-generation logic of the
Visual-Acuity-P3 repository (PsychoPy scripts).  The staircase classes
`SizeStaircase` and `ContrastStaircase` in
`rsvp_experiment_lettersandcontrast.py` are line-for-line identical up to the
names of their level lists and the constants `N_REVERSALS_SIZE` /
`N_REVERSALS_CONTRAST` (both 2), so a single embedding `SizeStaircase` below
covers both.  Level values are carried as rationals: the Python class stores
the raw CSV strings and converts with `float(...)` at every use; the string
layer (Python `sorted(..., reverse=True)` on strings and `float` parsing) is
embedded separately for the construction-time sortedness claim.

Randomness is embedded with an explicit oracle `g : ℕ → ℕ`: the k-th random
draw of a trial is `g k`, and `random.choice(l)` / `randint(a, b)` become
index selection by `g k % l.length` / `a + g k % (b - a + 1)`.  The
resample-until-distinct `while` loop of the stream generator is embedded with
explicit fuel, returning `none` when the fuel runs out.
-/

namespace VisualAcuity

/-- `TARGET_LETTERS` from `rsvp_experiment_lettersandcontrast.py`. -/
def TARGET_LETTERS : List String := ["C", "D", "H", "K", "N", "F", "R", "S", "V", "Z"]

/-- `DISTRACTORS = [str(i) for i in range(1, 10)]`. -/
def DISTRACTORS : List String := ["1", "2", "3", "4", "5", "6", "7", "8", "9"]

/-- `N_STREAM_ITEMS = 16`. -/
def N_STREAM_ITEMS : ℕ := 16

/-- `TARGET_POS_MIN = 3` (lettersandcontrast variant). -/
def TARGET_POS_MIN : ℕ := 3

/-- `TARGET_POS_MAX = 8` (lettersandcontrast variant). -/
def TARGET_POS_MAX : ℕ := 8

/-- `N_REVERSALS_SIZE = 2` (and `N_REVERSALS_CONTRAST = 2`). -/
def N_REVERSALS_SIZE : ℕ := 2

/-- `MAX_CONSECUTIVE_ERRORS = 2`. -/
def MAX_CONSECUTIVE_ERRORS : ℕ := 2

/-- `MIN_TRIALS_PER_STAIRCASE = 10`. -/
def MIN_TRIALS_PER_STAIRCASE : ℕ := 10

/-- `SIZE_LOGMAR_START = 1.0`. -/
def SIZE_LOGMAR_START : ℚ := 1

/-- Insert `a` into the already-sorted list, placing it before the first
element it strictly precedes (`lt a b = true`); equal elements keep their
original relative order, as Python's stable `sorted` does. -/
def insertSorted (lt : α → α → Bool) (a : α) : List α → List α
  | [] => [a]
  | b :: t => if lt a b then a :: b :: t else b :: insertSorted lt a t

/-- Stable insertion sort: the order produced by Python's
`sorted(l, reverse=True)` when `lt` is the strict "comes before" relation of
the descending order. -/
def pySorted (lt : α → α → Bool) (l : List α) : List α :=
  l.foldl (fun acc a => insertSorted lt a acc) []

/-- The mutable state of the Python class `SizeStaircase`
(`rsvp_experiment_lettersandcontrast.py`, lines 164-261); `ContrastStaircase`
(lines 264-361) has the identical fields.  `direction` is
`None` / `1` / `-1` in Python, embedded as `Option ℤ`.  Level values are the
parsed rationals of the stored strings (the class applies `float` at use). -/
structure SizeStaircase where
  logmar_values : List ℚ
  current_index : ℕ
  last_response_correct : Option Bool
  consecutive_errors : ℕ
  reversal_count : ℕ
  reversal_points : List (ℕ × ℚ)
  direction : Option ℤ
  trials : ℕ
  responses : List Bool
deriving Repr, DecidableEq

namespace SizeStaircase

/-- `SizeStaircase.__init__`: sort descending (numeric here; the string-level
sort of the source is treated separately), then take the first index whose
value is `≤ starting_logmar`, defaulting to 0. -/
def init (logmar_values : List ℚ) (starting_logmar : ℚ) : SizeStaircase :=
  let sortedVals := pySorted (fun a b => b < a) logmar_values
  { logmar_values := sortedVals
    current_index := (sortedVals.findIdx? (fun v => v ≤ starting_logmar)).getD 0
    last_response_correct := none
    consecutive_errors := 0
    reversal_count := 0
    reversal_points := []
    direction := none
    trials := 0
    responses := [] }

/-- `get_current_logmar`: `float(self.logmar_values[self.current_index])`.
Out-of-range access raises in Python; the invariant proved below keeps the
index in range, so the `getD` default is never consulted. -/
def get_current_logmar (s : SizeStaircase) : ℚ :=
  s.logmar_values.getD s.current_index 0

/-- The dict returned by `record_response`. -/
structure UpdateInfo where
  old_index : ℕ
  new_index : ℕ
  old_direction : Option ℤ
  new_direction : Option ℤ
  reversal : Bool
  reversal_count : ℕ
deriving Repr, DecidableEq

/-- `SizeStaircase.record_response` (lines 195-246), also
`ContrastStaircase.record_response` (lines 295-346): one staircase update,
returning the new state together with the info dict. -/
def record_response (s : SizeStaircase) (correct : Bool) :
    SizeStaircase × UpdateInfo :=
  let s0 := { s with trials := s.trials + 1, responses := s.responses ++ [correct] }
  let old_index := s0.current_index
  let old_direction := s0.direction
  let s1 :=
    if correct then
      let sa := { s0 with consecutive_errors := 0 }
      if sa.current_index < sa.logmar_values.length - 1 then
        let sb :=
          if sa.direction = some 1 then
            { sa with reversal_count := sa.reversal_count + 1,
                      reversal_points :=
                        sa.reversal_points ++ [(sa.trials, sa.get_current_logmar)] }
          else sa
        { sb with direction := some (-1), current_index := sb.current_index + 1 }
      else sa
    else
      let sa := { s0 with consecutive_errors := s0.consecutive_errors + 1 }
      if MAX_CONSECUTIVE_ERRORS ≤ sa.consecutive_errors then
        let sb :=
          if 0 < sa.current_index then
            let sc :=
              if sa.direction = some (-1) then
                { sa with reversal_count := sa.reversal_count + 1,
                          reversal_points :=
                            sa.reversal_points ++ [(sa.trials, sa.get_current_logmar)] }
              else sa
            { sc with direction := some 1, current_index := sc.current_index - 1 }
          else sa
        { sb with consecutive_errors := 0 }
      else sa
  let s2 := { s1 with last_response_correct := some correct }
  (s2,
   { old_index := old_index
     new_index := s2.current_index
     old_direction := old_direction
     new_direction := s2.direction
     reversal := old_direction.isSome && decide (old_direction ≠ s2.direction)
     reversal_count := s2.reversal_count })

/-- `is_complete` (lines 248-251): both the reversal requirement and the
minimum-trials requirement must hold. -/
def is_complete (s : SizeStaircase) : Bool :=
  N_REVERSALS_SIZE ≤ s.reversal_count && MIN_TRIALS_PER_STAIRCASE ≤ s.trials

/-- `np.mean` of a list of rationals. -/
def npMean (l : List ℚ) : ℚ := l.sum / l.length

/-- `get_threshold` (lines 253-261): mean of the values of the last
`N_REVERSALS_SIZE` reversal points when enough exist, else the current level.
`reversal_points[-N:]` is the suffix of length `N`, i.e. `drop (len - N)`. -/
def get_threshold (s : SizeStaircase) : ℚ :=
  if N_REVERSALS_SIZE ≤ s.reversal_points.length then
    npMean (((s.reversal_points.drop (s.reversal_points.length - N_REVERSALS_SIZE)).map
      Prod.snd))
  else
    s.get_current_logmar

/-- Fold a whole response sequence through the staircase (the experiment loop
calls `record_response` once per trial). -/
def run (s : SizeStaircase) : List Bool → SizeStaircase
  | [] => s
  | c :: cs => run (s.record_response c).1 cs

/-- The only values the Python code ever assigns to `self.direction`. -/
def dirOK (s : SizeStaircase) : Prop :=
  s.direction = none ∨ s.direction = some 1 ∨ s.direction = some (-1)

end SizeStaircase

namespace SizeStaircase

lemma logmar_values_record (s : SizeStaircase) (c : Bool) :
    ((s.record_response c).1).logmar_values = s.logmar_values := by
  simp only [record_response]
  split_ifs <;> rfl

lemma index_lt_record (s : SizeStaircase) (c : Bool)
    (h : s.current_index < s.logmar_values.length) :
    ((s.record_response c).1).current_index < s.logmar_values.length := by
  simp only [record_response]
  split_ifs <;> simp
  all_goals omega

lemma points_count_record (s : SizeStaircase) (c : Bool)
    (h : s.reversal_points.length = s.reversal_count) :
    ((s.record_response c).1).reversal_points.length =
      ((s.record_response c).1).reversal_count := by
  simp only [record_response]
  split_ifs <;> simp_all

lemma record_false_small (s : SizeStaircase)
    (h : s.consecutive_errors + 1 < MAX_CONSECUTIVE_ERRORS) :
    (s.record_response false).1 =
      { s with trials := s.trials + 1, responses := s.responses ++ [false],
               consecutive_errors := s.consecutive_errors + 1,
               last_response_correct := some false } := by
  simp only [record_response]
  split_ifs
  all_goals try rfl
  all_goals exfalso
  all_goals try dsimp only at *
  all_goals omega

lemma record_false_big (s : SizeStaircase)
    (h : MAX_CONSECUTIVE_ERRORS ≤ s.consecutive_errors + 1) :
    ((s.record_response false).1).consecutive_errors = 0 ∧
    ((s.record_response false).1).current_index = s.current_index - 1 := by
  simp only [record_response]
  split_ifs <;> simp_all <;> omega

lemma length_insertSorted (lt : α → α → Bool) (a : α) (l : List α) :
    (insertSorted lt a l).length = l.length + 1 := by
  induction l with
  | nil => rfl
  | cons b t ih =>
    simp only [insertSorted]
    split_ifs <;> simp [ih]

lemma length_pySorted (lt : α → α → Bool) (l : List α) :
    (pySorted lt l).length = l.length := by
  suffices h : ∀ acc : List α,
      (l.foldl (fun acc a => insertSorted lt a acc) acc).length =
        acc.length + l.length by
    simpa [pySorted] using h []
  induction l with
  | nil => simp
  | cons b t ih =>
    intro acc
    simp only [List.foldl_cons, ih, length_insertSorted, List.length_cons]
    omega

lemma init_index_lt (values : List ℚ) (start : ℚ) (h : values ≠ []) :
    (init values start).current_index < values.length := by
  simp only [init]
  rcases hf : (pySorted (fun a b => b < a) values).findIdx?
      (fun v => v ≤ start) with _ | i
  · rw [hf]
    simpa using List.length_pos.mpr h
  · rw [hf]
    have hi := (List.findIdx?_eq_some_iff_getElem.mp hf).1
    simpa [length_pySorted] using hi

lemma init_logmar_values (values : List ℚ) (start : ℚ) :
    (init values start).logmar_values.length = values.length := by
  simp [init, length_pySorted]

lemma run_logmar_values (resp : List Bool) (s : SizeStaircase) :
    (run s resp).logmar_values = s.logmar_values := by
  induction resp generalizing s with
  | nil => rfl
  | cons c cs ih => simp [run, ih, logmar_values_record]

lemma run_index_lt (resp : List Bool) (s : SizeStaircase)
    (h : s.current_index < s.logmar_values.length) :
    (run s resp).current_index < (run s resp).logmar_values.length := by
  induction resp generalizing s with
  | nil => simpa [run]
  | cons c cs ih =>
    have h1 := index_lt_record s c h
    rw [← logmar_values_record s c] at h1
    exact ih _ h1

lemma run_points_count (resp : List Bool) (s : SizeStaircase)
    (h : s.reversal_points.length = s.reversal_count) :
    (run s resp).reversal_points.length = (run s resp).reversal_count := by
  induction resp generalizing s with
  | nil => simpa [run]
  | cons c cs ih => exact ih _ (points_count_record s c h)

end SizeStaircase

open SizeStaircase in
/-- C1 (counterexample).  At the hardest index a correct response leaves the
direction bookkeeping untouched: starting a staircase on levels `[2, 1]` at
level `1` puts `current_index` at the last index with `direction = None`, and
`record_response(True)` leaves `new_direction = None` instead of setting it to
`Decreasing` (`-1`) as the claim asserts. -/
theorem boundary_direction_not_set_cex :
    (SizeStaircase.init [2, 1] 1).current_index =
      (SizeStaircase.init [2, 1] 1).logmar_values.length - 1 ∧
    (SizeStaircase.init [2, 1] 1).direction = none ∧
    (((SizeStaircase.init [2, 1] 1).record_response true).2).new_direction ≠
      some (-1) := by
  decide

open SizeStaircase in
/-- C1 (amended).  A `record_response` call whose level change would cross a
boundary (correct at the hardest index, or a second consecutive error at
index 0) is a no-op on the index AND on the direction bookkeeping: the
direction is left unchanged, no reversal is counted, and the returned
`reversal` flag is false; the consecutive-error counter is still reset. -/
theorem record_response_boundary_noop (s : SizeStaircase) (c : Bool) :
    (c = true → ¬ s.current_index < s.logmar_values.length - 1 →
      (s.record_response c).1.current_index = s.current_index ∧
      (s.record_response c).1.direction = s.direction ∧
      (s.record_response c).1.reversal_count = s.reversal_count ∧
      (s.record_response c).2.reversal = false ∧
      (s.record_response c).1.consecutive_errors = 0) ∧
    (c = false → MAX_CONSECUTIVE_ERRORS ≤ s.consecutive_errors + 1 →
      s.current_index = 0 →
      (s.record_response c).1.current_index = 0 ∧
      (s.record_response c).1.direction = s.direction ∧
      (s.record_response c).1.reversal_count = s.reversal_count ∧
      (s.record_response c).2.reversal = false ∧
      (s.record_response c).1.consecutive_errors = 0) := by
  constructor
  · rintro rfl hb
    simp only [record_response]
    split_ifs
    all_goals simp_all
  · rintro rfl hm h0
    simp only [record_response]
    split_ifs
    all_goals simp_all

open SizeStaircase in
/-- Witness for the amended C1 at a concrete boundary state. -/
theorem record_response_boundary_noop_witness :
    (¬ (SizeStaircase.init [2, 1] 1).current_index <
        (SizeStaircase.init [2, 1] 1).logmar_values.length - 1) ∧
    (((SizeStaircase.init [2, 1] 1).record_response true).1.current_index =
        (SizeStaircase.init [2, 1] 1).current_index ∧
      ((SizeStaircase.init [2, 1] 1).record_response true).1.direction =
        (SizeStaircase.init [2, 1] 1).direction ∧
      ((SizeStaircase.init [2, 1] 1).record_response true).1.reversal_count =
        (SizeStaircase.init [2, 1] 1).reversal_count ∧
      ((SizeStaircase.init [2, 1] 1).record_response true).2.reversal = false ∧
      ((SizeStaircase.init [2, 1] 1).record_response true).1.consecutive_errors
        = 0) :=
  ⟨by decide,
   (record_response_boundary_noop (SizeStaircase.init [2, 1] 1) true).1 rfl
     (by decide)⟩

open SizeStaircase in
/-- C2 (counterexample).  Two consecutive incorrect responses do NOT always
decrease `current_index` by 1: on a staircase already at index 0 (here a
one-level scale) the index stays 0. -/
theorem two_errors_at_easiest_cex :
    (SizeStaircase.init [1] 1).consecutive_errors = 0 ∧
    (SizeStaircase.init [1] 1).current_index = 0 ∧
    ((((SizeStaircase.init [1] 1).record_response false).1.record_response
        false).1).current_index = 0 := by
  decide

open SizeStaircase in
/-- C2 (amended).  From `consecutive_errors = 0`, two consecutive
`record_response(False)` calls reset the error counter to 0 and decrease
`current_index` by exactly 1 whenever the index is positive; at index 0 the
index is unchanged (clamped). -/
theorem two_errors_step_easier (s : SizeStaircase)
    (h : s.consecutive_errors = 0) :
    (((s.record_response false).1.record_response false).1).consecutive_errors
      = 0 ∧
    (0 < s.current_index →
      (((s.record_response false).1.record_response false).1).current_index =
        s.current_index - 1) ∧
    (s.current_index = 0 →
      (((s.record_response false).1.record_response false).1).current_index =
        0) := by
  rw [record_false_small s (by simp [MAX_CONSECUTIVE_ERRORS, h])]
  have hb := record_false_big
    { s with trials := s.trials + 1, responses := s.responses ++ [false],
             consecutive_errors := s.consecutive_errors + 1,
             last_response_correct := some false }
    (by simp [MAX_CONSECUTIVE_ERRORS, h])
  refine ⟨hb.1, fun _ => ?_, fun h0 => ?_⟩ <;> simp_all [hb.2]

open SizeStaircase in
/-- Witness for the amended C2 at a staircase sitting at index 1 of a
three-level scale. -/
theorem two_errors_step_easier_witness :
    (SizeStaircase.init [3, 2, 1] 2).consecutive_errors = 0 ∧
    0 < (SizeStaircase.init [3, 2, 1] 2).current_index ∧
    ((((SizeStaircase.init [3, 2, 1] 2).record_response
        false).1.record_response false).1).current_index =
      (SizeStaircase.init [3, 2, 1] 2).current_index - 1 :=
  ⟨by decide, by decide,
   (two_errors_step_easier (SizeStaircase.init [3, 2, 1] 2) (by decide)).2.1
     (by decide)⟩

open SizeStaircase in
/-- C5.  For a staircase built from a non-empty level list, after any sequence
of `record_response` calls the current index stays below the number of levels
(and, being a natural number, is never negative). -/
theorem current_index_in_range (values : List ℚ) (start : ℚ)
    (resp : List Bool) (h : values ≠ []) :
    (SizeStaircase.run (SizeStaircase.init values start) resp).current_index <
      values.length := by
  have h1 := run_index_lt resp (SizeStaircase.init values start)
    (by
      have := init_index_lt values start h
      simpa [init_logmar_values] using
        (init_logmar_values values start ▸ this))
  rw [run_logmar_values] at h1
  simpa [init_logmar_values] using h1

open SizeStaircase in
/-- Witness for C5 on a concrete two-level staircase and response list. -/
theorem current_index_in_range_witness :
    ([(2 : ℚ), 1] ≠ []) ∧
    (SizeStaircase.run (SizeStaircase.init [2, 1] 2)
        [true, true, false, false, false]).current_index < 2 := by
  refine ⟨by decide, ?_⟩
  have h := current_index_in_range [2, 1] 2 [true, true, false, false, false]
    (by decide)
  simpa using h

open SizeStaircase in
/-- C6.  `reversal_count` goes up by exactly 1 exactly when the call flips
`direction` between the two set values `1` and `-1`; it never moves on the
first assignment from `None`; and the returned `reversal` flag is true exactly
on the incrementing calls.  The hypothesis restricts `direction` to the three
values the Python code ever assigns. -/
theorem reversal_count_iff_direction_flip (s : SizeStaircase) (c : Bool)
    (hd : s.dirOK) :
    (((s.record_response c).1).reversal_count = s.reversal_count + 1 ↔
      (s.direction = some 1 ∧ ((s.record_response c).1).direction = some (-1)) ∨
      (s.direction = some (-1) ∧ ((s.record_response c).1).direction = some 1)) ∧
    (s.direction = none →
      ((s.record_response c).1).reversal_count = s.reversal_count) ∧
    ((s.record_response c).2.reversal = true ↔
      ((s.record_response c).1).reversal_count = s.reversal_count + 1) := by
  rcases hd with h | h | h <;>
    simp only [record_response] <;> split_ifs <;> simp_all

open SizeStaircase in
/-- Witness for C6: a first correct response from `direction = None` sets the
direction without counting a reversal. -/
theorem reversal_count_iff_direction_flip_witness :
    (((SizeStaircase.init [2, 1] 2).record_response true).1).reversal_count =
      (SizeStaircase.init [2, 1] 2).reversal_count :=
  (reversal_count_iff_direction_flip (SizeStaircase.init [2, 1] 2) true
      (Or.inl (by decide))).2.1 (by decide)

open SizeStaircase in
/-- C4.  For every reachable staircase state, `get_threshold` returns the
arithmetic mean (sum divided by `N_REVERSALS_SIZE`) of the level values of
the last `N_REVERSALS_SIZE` recorded reversal points once at least that many
reversals have been recorded, and the current level value otherwise.  The
bridge between "reversals recorded" (`reversal_count`) and the stored
reversal-point list is the invariant `reversal_points.length = reversal_count`
maintained by `record_response`. -/
theorem get_threshold_mean_of_last_reversals (values : List ℚ) (start : ℚ)
    (resp : List Bool) :
    (N_REVERSALS_SIZE ≤
        (SizeStaircase.run (SizeStaircase.init values start) resp).reversal_count →
      (SizeStaircase.run (SizeStaircase.init values start) resp).get_threshold =
        ((((SizeStaircase.run (SizeStaircase.init values start)
              resp).reversal_points.drop
            ((SizeStaircase.run (SizeStaircase.init values start)
                resp).reversal_points.length - N_REVERSALS_SIZE)).map
          Prod.snd).sum) / (N_REVERSALS_SIZE : ℚ)) ∧
    ((SizeStaircase.run (SizeStaircase.init values start) resp).reversal_count <
        N_REVERSALS_SIZE →
      (SizeStaircase.run (SizeStaircase.init values start) resp).get_threshold =
        (SizeStaircase.run (SizeStaircase.init values start)
          resp).get_current_logmar) := by
  have hc := run_points_count resp (SizeStaircase.init values start)
    (by simp [SizeStaircase.init])
  constructor
  · intro hge
    rw [SizeStaircase.get_threshold, if_pos (by omega), SizeStaircase.npMean]
    have hlen : (((SizeStaircase.run (SizeStaircase.init values start)
        resp).reversal_points.drop
        ((SizeStaircase.run (SizeStaircase.init values start)
            resp).reversal_points.length - N_REVERSALS_SIZE)).map
        Prod.snd).length = N_REVERSALS_SIZE := by
      simp only [List.length_map, List.length_drop]
      omega
    rw [hlen]
  · intro hlt
    rw [SizeStaircase.get_threshold, if_neg (by omega)]

open SizeStaircase in
/-- Witness for C4: the sequence correct, wrong, wrong, correct on a
three-level staircase produces two reversals, and the threshold is their
mean. -/
theorem get_threshold_mean_of_last_reversals_witness :
    N_REVERSALS_SIZE ≤
      (SizeStaircase.run (SizeStaircase.init [3, 2, 1] 3)
        [true, false, false, true]).reversal_count ∧
    (SizeStaircase.run (SizeStaircase.init [3, 2, 1] 3)
        [true, false, false, true]).get_threshold =
      ((((SizeStaircase.run (SizeStaircase.init [3, 2, 1] 3)
            [true, false, false, true]).reversal_points.drop
          ((SizeStaircase.run (SizeStaircase.init [3, 2, 1] 3)
              [true, false, false, true]).reversal_points.length -
            N_REVERSALS_SIZE)).map Prod.snd).sum) / (N_REVERSALS_SIZE : ℚ) :=
  ⟨by decide,
   (get_threshold_mean_of_last_reversals [3, 2, 1] 3
      [true, false, false, true]).1 (by decide)⟩

open SizeStaircase in
/-- C9.  `is_complete` is true iff both the reversal requirement and the
minimum-trials requirement hold; each condition alone is insufficient. -/
theorem is_complete_iff (s : SizeStaircase) :
    (s.is_complete = true ↔
      N_REVERSALS_SIZE ≤ s.reversal_count ∧
        MIN_TRIALS_PER_STAIRCASE ≤ s.trials) ∧
    (s.trials < MIN_TRIALS_PER_STAIRCASE → s.is_complete = false) ∧
    (s.reversal_count < N_REVERSALS_SIZE → s.is_complete = false) := by
  simp [is_complete]
  omega

open SizeStaircase in
/-- Witness for C9: a fresh staircase has too few trials, hence is not
complete. -/
theorem is_complete_iff_witness :
    (SizeStaircase.init [1] 1).trials < MIN_TRIALS_PER_STAIRCASE ∧
    (SizeStaircase.init [1] 1).is_complete = false :=
  ⟨by decide, (is_complete_iff (SizeStaircase.init [1] 1)).2.1 (by decide)⟩

/-- Python `<` on two character lists: lexicographic by code point, a proper
prefix being smaller. -/
def pyCharListLt : List Char → List Char → Bool
  | [], [] => false
  | [], _ :: _ => true
  | _ :: _, [] => false
  | a :: as, b :: bs =>
      if a.toNat < b.toNat then true
      else if b.toNat < a.toNat then false
      else pyCharListLt as bs

/-- Python `<` on strings. -/
def pyStrLt (a b : String) : Bool := pyCharListLt a.data b.data

/-- `sorted(l, reverse=True)` applied to the STRINGS read from the conditions
CSV (`logmar_values = [row['logmar'] for row in reader]`): a stable sort in
descending lexicographic string order, exactly what
`self.logmar_values = sorted(logmar_values, reverse=True)` computes. -/
def pySortedRevStrings (l : List String) : List String :=
  pySorted (fun a b => pyStrLt b a) l

/-- Accumulate a run of decimal digits; `none` on any non-digit. -/
def parseDigitsAux : List Char → ℕ → Option ℕ
  | [], acc => some acc
  | c :: cs, acc =>
      if c.isDigit then parseDigitsAux cs (acc * 10 + (c.toNat - 48)) else none

/-- Python `float(...)` restricted to the plain decimal literals this
repository stores in its conditions files (optional sign, digits, optional
fractional part), returned as an exact scaled integer: `some (m, e)` stands
for the value `m / 10 ^ e`. -/
def pyFloatParts? (s : String) : Option (ℤ × ℕ) :=
  let cs := s.data
  let neg : Bool := cs.head? = some '-'
  let cs := if cs.head? = some '-' || cs.head? = some '+' then cs.tail else cs
  let ip := cs.takeWhile (fun c => c ≠ '.')
  let rest := cs.dropWhile (fun c => c ≠ '.')
  let sign : ℤ := if neg then -1 else 1
  match rest with
  | [] =>
      if ip.isEmpty then none
      else (parseDigitsAux ip 0).map (fun n => (sign * n, 0))
  | _ :: frac =>
      if ip.isEmpty && frac.isEmpty then none
      else
        match parseDigitsAux ip 0, parseDigitsAux frac 0 with
        | some n, some f => some (sign * (n * 10 ^ frac.length + f), frac.length)
        | _, _ => none

/-- The rational value represented by a scaled integer `(m, e)`,
namely `m / 10 ^ e`. -/
def pyFloatVal (p : ℤ × ℕ) : ℚ := (p.1 : ℚ) / (10 : ℚ) ^ p.2

/-- The default LogMAR value list of
`rsvp_experiment_lettersandcontrast.py` (used when `conditions.csv` is
absent): strings, as loaded. -/
def defaultLogmarStrings : List String :=
  ["1.0", "0.9", "0.8", "0.7", "0.6", "0.5", "0.4", "0.3", "0.2", "0.1",
   "0.0", "-0.1", "-0.2", "-0.3"]

/-- C3 (code bug).  The constructor sorts the raw CSV strings
(`sorted(logmar_values, reverse=True)`), i.e. descending LEXICOGRAPHIC
order, while the inline comment says "Sort from largest to smallest" and the
staircase logic needs descending NUMERIC order.  On the default LogMAR list
the negative entries come out as `-0.3, -0.2, -0.1` (numerically ascending),
so the stored scale is not sorted in descending numeric order: the parsed
value sequence violates descending order between positions 11 and 12. -/
theorem string_sort_not_numeric_descending :
    pySortedRevStrings defaultLogmarStrings =
      ["1.0", "0.9", "0.8", "0.7", "0.6", "0.5", "0.4", "0.3", "0.2", "0.1",
       "0.0", "-0.3", "-0.2", "-0.1"] ∧
    ((pySortedRevStrings defaultLogmarStrings).all
      (fun t => (pyFloatParts? t).isSome)) = true ∧
    (pySortedRevStrings defaultLogmarStrings).get? 11 = some "-0.3" ∧
    (pySortedRevStrings defaultLogmarStrings).get? 12 = some "-0.2" ∧
    pyFloatParts? "-0.3" = some (-3, 1) ∧
    pyFloatParts? "-0.2" = some (-2, 1) ∧
    pyFloatVal (-3, 1) < pyFloatVal (-2, 1) := by
  refine ⟨by decide, by decide, by decide, by decide, by decide, by decide, ?_⟩
  norm_num [pyFloatVal]

/-- One distractor draw with resampling, embedding
`distractor = random.choice(DISTRACTORS)` followed by
`while stream and distractor == stream[-1]: distractor = random.choice(...)`
(`rsvp_experiment_lettersandcontrast.py` lines 558-562; the labjack variant's
`while True ... break` loop at lines 418-424 has the same semantics).  `k` is
the position in the oracle stream, `prev` the last stream item (`stream[-1]`,
`none` when the stream is still empty); the list of candidate distractors is a
parameter.  `fuel` bounds the number of draws: `none` means the loop is still
running after `fuel` draws. -/
def drawDistractor (g : ℕ → ℕ) (ds : List String) :
    ℕ → ℕ → Option String → Option (String × ℕ)
  | _, 0, _ => none
  | k, fuel + 1, prev =>
      let d := ds.getD (g k % ds.length) ""
      match prev with
      | none => some (d, k + 1)
      | some p =>
          if d = p then drawDistractor g ds (k + 1) fuel (some p)
          else some (d, k + 1)

/-- The stream-building `for i in range(N_STREAM_ITEMS)` loop of
`run_rsvp_trial`: slot `i` holds the target when `i == target_position`,
otherwise a freshly drawn distractor differing from the previous item.
`rem` counts the remaining slots, `k` the oracle position. -/
def buildStream (g : ℕ → ℕ) (fuel : ℕ) (target : String) (pos : ℕ) :
    ℕ → ℕ → ℕ → Option String → Option (List String)
  | 0, _, _, _ => some []
  | rem + 1, i, k, prev =>
      if i = pos then
        match buildStream g fuel target pos rem (i + 1) k (some target) with
        | none => none
        | some t => some (target :: t)
      else
        match drawDistractor g DISTRACTORS k fuel prev with
        | none => none
        | some (d, k2) =>
            match buildStream g fuel target pos rem (i + 1) k2 (some d) with
            | none => none
            | some t => some (d :: t)

/-- The stimulus-selection part of `run_rsvp_trial`
(`rsvp_experiment_lettersandcontrast.py` lines 552-563): target letter by
`random.choice(TARGET_LETTERS)` (oracle draw 0), target position by
`random.randint(TARGET_POS_MIN, TARGET_POS_MAX)` (inclusive; oracle draw 1),
then the 16-slot stream (oracle draws from 2 on). -/
def runRsvpTrialStim (g : ℕ → ℕ) (fuel : ℕ) :
    Option (String × ℕ × List String) :=
  let target := TARGET_LETTERS.getD (g 0 % TARGET_LETTERS.length) ""
  let pos := TARGET_POS_MIN + g 1 % (TARGET_POS_MAX - TARGET_POS_MIN + 1)
  match buildStream g fuel target pos N_STREAM_ITEMS 0 2 none with
  | none => none
  | some stream => some (target, pos, stream)

/-- `TARGET_POS_MIN = 5` in `rsvp_experiment_letters_labjack.py`. -/
def TARGET_POS_MIN_LJ : ℕ := 5

/-- `TARGET_POS_MAX = 8` in `rsvp_experiment_letters_labjack.py`. -/
def TARGET_POS_MAX_LJ : ℕ := 8

/-- `FIXATION_SYMBOLS = ['-', '=']` in `rsvp_experiment_letters_labjack.py`. -/
def FIXATION_SYMBOLS : List String := ["-", "="]

/-- The stimulus-selection part of `run_rsvp_trial` in
`rsvp_experiment_letters_labjack.py` (lines 404-426).  `hash` is the
process-wide Python `hash` on strings and `rng seed` the deterministic draw
stream of `np.random.RandomState(seed)`; both are abstract parameters.
`seed_value = int(hash(str(pid) + str(stim_size_deg) + str(require_response))
% 2**32)`; `stim_size_deg` enters only through `str(...)`, so it is carried
here as the already-stringified value.  The per-trial arguments
`item_duration_frames` and `end_fix_duration` are accepted (as in the Python
signature) but never reach a random draw.  Output: target letter, target
position (`rng.randint(TARGET_POS_MIN, TARGET_POS_MAX + 1)`, upper bound
exclusive), end symbol, and the 16-item stream. -/
def labjackRunTrial (hash : String → ℤ) (rng : ℕ → ℕ → ℕ)
    (participant_id : String) (stim_size_deg : String)
    (item_duration_frames : ℕ) (require_response : Bool)
    (end_fix_duration : ℚ) (fuel : ℕ) :
    Option (String × ℕ × String × List String) :=
  let seed := ((hash (participant_id ++ stim_size_deg ++
      (if require_response then "True" else "False"))).emod (2 ^ 32)).toNat
  let g : ℕ → ℕ := rng seed
  let target := TARGET_LETTERS.getD (g 0 % TARGET_LETTERS.length) ""
  let pos := TARGET_POS_MIN_LJ + g 1 % (TARGET_POS_MAX_LJ + 1 - TARGET_POS_MIN_LJ)
  let endSym := FIXATION_SYMBOLS.getD (g 2 % FIXATION_SYMBOLS.length) ""
  match buildStream g fuel target pos N_STREAM_ITEMS 0 3 none with
  | none => none
  | some stream => some (target, pos, endSym, stream)

lemma getD_mem_of_lt (l : List String) (n : ℕ) (hn : n < l.length) :
    l.getD n "" ∈ l := by
  rw [List.getD_eq_getElem?_getD, List.getElem?_eq_getElem hn]
  exact List.getElem_mem hn

lemma drawDistractor_mem (g : ℕ → ℕ) (ds : List String) (hds : ds ≠ []) :
    ∀ (fuel k : ℕ) (prev : Option String) (d : String) (k2 : ℕ),
      drawDistractor g ds k fuel prev = some (d, k2) →
      d ∈ ds ∧ ∀ p, prev = some p → d ≠ p := by
  intro fuel
  induction fuel with
  | zero => intro k prev d k2 h; simp [drawDistractor] at h
  | succ fuel ih =>
    intro k prev d k2 h
    have hlen : 0 < ds.length := List.length_pos.mpr hds
    have hmem : ds.getD (g k % ds.length) "" ∈ ds :=
      getD_mem_of_lt ds _ (Nat.mod_lt _ hlen)
    rcases prev with _ | p
    · simp only [drawDistractor] at h
      obtain ⟨rfl, rfl⟩ : ds.getD (g k % ds.length) "" = d ∧ k + 1 = k2 := by
        simpa using h
      exact ⟨hmem, by simp⟩
    · simp only [drawDistractor] at h
      split_ifs at h with he
      · obtain ⟨h1, h2⟩ := ih (k + 1) (some p) d k2 h
        exact ⟨h1, h2⟩
      · obtain ⟨rfl, rfl⟩ : ds.getD (g k % ds.length) "" = d ∧ k + 1 = k2 := by
          simpa using h
        exact ⟨hmem, by simpa using he⟩

lemma targets_distractors_disjoint :
    ∀ t ∈ TARGET_LETTERS, ∀ d ∈ DISTRACTORS, t ≠ d := by decide

lemma buildStream_spec (g : ℕ → ℕ) (fuel : ℕ) (target : String) (pos : ℕ)
    (ht : target ∈ TARGET_LETTERS) :
    ∀ (rem i k : ℕ) (prev : Option String) (l : List String),
      buildStream g fuel target pos rem i k prev = some l →
      (∀ p, prev = some p → p ∈ DISTRACTORS ∨ (p = target ∧ pos < i)) →
      l.length = rem ∧
      (∀ j, j < rem → (i + j = pos → l.get? j = some target) ∧
          (i + j ≠ pos → ∃ d ∈ DISTRACTORS, l.get? j = some d)) ∧
      (∀ p, prev = some p → ∀ x, l.head? = some x → x ≠ p) ∧
      List.Chain' (fun a b => a ≠ b) l := by
  intro rem
  induction rem with
  | zero =>
    intro i k prev l h hprev
    obtain rfl : l = [] := by simpa [buildStream] using h.symm
    exact ⟨rfl, by intro j hj; exact absurd hj (by omega), by simp, by simp⟩
  | succ rem ih =>
    intro i k prev l h hprev
    by_cases hi : i = pos
    · rw [buildStream, if_pos hi] at h
      rcases hrec : buildStream g fuel target pos rem (i + 1) k (some target)
        with _ | t
      · rw [hrec] at h; exact absurd h (by simp)
      · rw [hrec] at h
        obtain rfl : target :: t = l := by simpa using h
        have hprev' : ∀ p, (some target : Option String) = some p →
            p ∈ DISTRACTORS ∨ (p = target ∧ pos < i + 1) := by
          intro p hp
          right
          exact ⟨(Option.some_injective _ hp).symm, by omega⟩
        obtain ⟨hlen, hslots, hhead, hchain⟩ := ih (i + 1) k (some target) t hrec hprev'
        refine ⟨by simp [hlen], ?_, ?_, ?_⟩
        · intro j hj
          rcases j with _ | j
          · refine ⟨fun _ => rfl, fun hne => absurd (by omega) hne⟩
          · have := hslots j (by omega)
            constructor
            · intro hpj
              simpa using this.1 (by omega)
            · intro hpj
              simpa using this.2 (by omega)
        · intro p hp x hx
          obtain rfl : target = x := by simpa using hx
          rcases hprev p hp with hd | ⟨rfl, hlt⟩
          · exact targets_distractors_disjoint _ ht _ hd
          · omega
        · rw [List.chain'_cons']
          refine ⟨?_, hchain⟩
          intro y hy
          exact fun hcontra => (hhead target rfl y hy) (hcontra ▸ rfl)
    · rw [buildStream, if_neg hi] at h
      rcases hdraw : drawDistractor g DISTRACTORS k fuel prev with _ | dk
      · rw [hdraw] at h; exact absurd h (by simp)
      · obtain ⟨d, k2⟩ := dk
        rw [hdraw] at h
        dsimp only at h
        rcases hrec : buildStream g fuel target pos rem (i + 1) k2 (some d)
          with _ | t
        · rw [hrec] at h; exact absurd h (by simp)
        · rw [hrec] at h
          obtain rfl : d :: t = l := by simpa using h
          obtain ⟨hdmem, hdne⟩ := drawDistractor_mem g DISTRACTORS
            (by decide) fuel k prev d k2 hdraw
          have hprev' : ∀ p, (some d : Option String) = some p →
              p ∈ DISTRACTORS ∨ (p = target ∧ pos < i + 1) := by
            intro p hp
            exact Or.inl ((Option.some_injective _ hp) ▸ hdmem)
          obtain ⟨hlen, hslots, hhead, hchain⟩ := ih (i + 1) k2 (some d) t hrec hprev'
          refine ⟨by simp [hlen], ?_, ?_, ?_⟩
          · intro j hj
            rcases j with _ | j
            · exact ⟨fun hc => absurd (by omega : i = pos) hi,
                fun _ => ⟨d, hdmem, rfl⟩⟩
            · have := hslots j (by omega)
              constructor
              · intro hpj
                simpa using this.1 (by omega)
              · intro hpj
                simpa using this.2 (by omega)
          · intro p hp x hx
            obtain rfl : d = x := by simpa using hx
            exact hdne p hp
          · rw [List.chain'_cons']
            refine ⟨?_, hchain⟩
            intro y hy
            exact fun hcontra => (hhead d rfl y hy) (hcontra ▸ rfl)

/-- C7.  Every stream the generator outputs (target always present in this
identification variant) has length `N_STREAM_ITEMS = 16`; the target position
lies in the inclusive range `[TARGET_POS_MIN, TARGET_POS_MAX] = [3, 8]` (it is
drawn as `TARGET_POS_MIN + r % 6`, the embedding of the uniform
`random.randint(3, 8)`); the slot at the target position holds the drawn
target letter, a member of `TARGET_LETTERS`; every other slot holds a member
of `DISTRACTORS`; the two sets are disjoint, so exactly one stream item is a
target; and no two adjacent stream items are equal. -/
theorem rsvp_stream_properties (g : ℕ → ℕ) (fuel : ℕ) (t : String) (p : ℕ)
    (stream : List String)
    (h : runRsvpTrialStim g fuel = some (t, p, stream)) :
    stream.length = N_STREAM_ITEMS ∧
    TARGET_POS_MIN ≤ p ∧ p ≤ TARGET_POS_MAX ∧
    t ∈ TARGET_LETTERS ∧
    stream.get? p = some t ∧
    (∀ i, i < N_STREAM_ITEMS → i ≠ p →
      ∃ d ∈ DISTRACTORS, stream.get? i = some d) ∧
    (∀ d ∈ DISTRACTORS, d ∉ TARGET_LETTERS) ∧
    List.Chain' (fun a b => a ≠ b) stream := by
  rcases hb : buildStream g fuel
      (TARGET_LETTERS.getD (g 0 % TARGET_LETTERS.length) "")
      (TARGET_POS_MIN + g 1 % (TARGET_POS_MAX - TARGET_POS_MIN + 1))
      N_STREAM_ITEMS 0 2 none with _ | s
  · rw [runRsvpTrialStim, hb] at h
    exact absurd h (by simp)
  · rw [runRsvpTrialStim, hb] at h
    obtain ⟨rfl, rfl, rfl⟩ :
        TARGET_LETTERS.getD (g 0 % TARGET_LETTERS.length) "" = t ∧
        TARGET_POS_MIN + g 1 % (TARGET_POS_MAX - TARGET_POS_MIN + 1) = p ∧
        s = stream := by simpa using h
    have ht : TARGET_LETTERS.getD (g 0 % TARGET_LETTERS.length) "" ∈
        TARGET_LETTERS :=
      getD_mem_of_lt _ _ (Nat.mod_lt _ (by decide))
    have hmod : g 1 % (TARGET_POS_MAX - TARGET_POS_MIN + 1) <
        TARGET_POS_MAX - TARGET_POS_MIN + 1 := Nat.mod_lt _ (by decide)
    obtain ⟨hlen, hslots, _, hchain⟩ := buildStream_spec g fuel _ _ ht
      N_STREAM_ITEMS 0 2 none s hb (by simp)
    refine ⟨hlen, by omega, ?_, ht, ?_, ?_, by decide, hchain⟩
    · simp only [TARGET_POS_MIN, TARGET_POS_MAX] at *
      omega
    · have hp : TARGET_POS_MIN + g 1 % (TARGET_POS_MAX - TARGET_POS_MIN + 1) <
          N_STREAM_ITEMS := by
        simp only [TARGET_POS_MIN, TARGET_POS_MAX, N_STREAM_ITEMS] at *
        omega
      have := (hslots _ hp).1 (by omega)
      simpa using this
    · intro i hi hne
      have := (hslots i hi).2 (by omega)
      simpa using this

/-- Witness for C7: the oracle `fun n => n` with fuel 2 generates a concrete
stream, whose adjacent-distinctness follows by applying the theorem. -/
theorem rsvp_stream_properties_witness :
    runRsvpTrialStim (fun n => n) 2 =
      some ("C", 4, ["3", "4", "5", "6", "C", "7", "8", "9", "1", "2", "3",
        "4", "5", "6", "7", "8"]) ∧
    List.Chain' (fun a b => a ≠ b)
      ["3", "4", "5", "6", "C", "7", "8", "9", "1", "2", "3", "4", "5", "6",
       "7", "8"] :=
  ⟨by decide,
   (rsvp_stream_properties (fun n => n) 2 "C" 4
      ["3", "4", "5", "6", "C", "7", "8", "9", "1", "2", "3", "4", "5", "6",
       "7", "8"] (by decide)).2.2.2.2.2.2.2⟩

/-- C8 (counterexample).  With a one-element distractor set whose element
equals the previous stream item, the resample loop is still running after 50
draws — the code contains no configuration-error check that would reject the
singleton set. -/
theorem singleton_distractor_no_config_error_cex :
    drawDistractor (fun _ => 0) ["1"] 0 50 (some "1") = none := by
  decide

lemma drawDistractor_singleton_none (g : ℕ → ℕ) (p : String) :
    ∀ (fuel k : ℕ), drawDistractor g [p] k fuel (some p) = none := by
  intro fuel
  induction fuel with
  | zero => intro k; rfl
  | succ fuel ih =>
    intro k
    simp only [drawDistractor, List.length_singleton, Nat.mod_one,
      List.getD, List.get?, Option.getD_some, if_pos rfl]
    exact ih (k + 1)

lemma consecutive_digits_ne :
    ∀ m : Fin 9, DISTRACTORS.getD ((m.val + 1) % 9) "" ≠
      DISTRACTORS.getD m.val "" := by decide

/-- C8 (amended).  The resample loop is NOT guaranteed to terminate for every
configuration and performs no configuration-error rejection: with a singleton
distractor set equal to the previous item it runs forever (the fuelled
embedding returns `none` for every fuel).  What does hold: every successful
draw differs from the previous item, and with the shipped nine-digit
distractor set termination is reachable — e.g. the oracle that advances
through the list exits within two draws, because consecutive entries of
`DISTRACTORS` are distinct. -/
theorem resample_loop_behavior (g : ℕ → ℕ) (k fuel : ℕ) (p : String) :
    drawDistractor g [p] k fuel (some p) = none ∧
    (∀ d k2, drawDistractor g DISTRACTORS k fuel (some p) = some (d, k2) →
      d ≠ p) ∧
    (∃ r, drawDistractor (fun n => n) DISTRACTORS k 2 (some p) = some r) := by
  refine ⟨drawDistractor_singleton_none g p fuel k, ?_, ?_⟩
  · intro d k2 h
    exact (drawDistractor_mem g DISTRACTORS (by decide) fuel k (some p) d k2
      h).2 p rfl
  · have e1 : drawDistractor (fun n => n) DISTRACTORS k 2 (some p) =
        if DISTRACTORS.getD (k % 9) "" = p then
          drawDistractor (fun n => n) DISTRACTORS (k + 1) 1 (some p)
        else some (DISTRACTORS.getD (k % 9) "", k + 1) := rfl
    have e2 : drawDistractor (fun n => n) DISTRACTORS (k + 1) 1 (some p) =
        if DISTRACTORS.getD ((k + 1) % 9) "" = p then
          drawDistractor (fun n => n) DISTRACTORS (k + 2) 0 (some p)
        else some (DISTRACTORS.getD ((k + 1) % 9) "", k + 2) := rfl
    by_cases h1 : DISTRACTORS.getD (k % 9) "" = p
    · have hm : k % 9 < 9 := Nat.mod_lt _ (by omega)
      have hmod : (k + 1) % 9 = (k % 9 + 1) % 9 := by omega
      have hne : DISTRACTORS.getD ((k + 1) % 9) "" ≠ p := by
        rw [hmod, ← h1]
        exact consecutive_digits_ne ⟨k % 9, hm⟩
      exact ⟨(DISTRACTORS.getD ((k + 1) % 9) "", k + 2),
        by rw [e1, if_pos h1, e2, if_neg hne]⟩
    · exact ⟨(DISTRACTORS.getD (k % 9) "", k + 1), by rw [e1, if_neg h1]⟩

/-- Witness for the amended C8: the singleton loop yields nothing at fuel 50,
and a successful draw over the shipped distractor set really differs from the
previous item. -/
theorem resample_loop_behavior_witness :
    drawDistractor (fun n => n) ["1"] 0 50 (some "1") = none ∧
    ("2" : String) ≠ "1" :=
  ⟨(resample_loop_behavior (fun n => n) 0 50 "1").1,
   (resample_loop_behavior (fun n => n) 0 50 "1").2.1 "2" 2 (by decide)⟩

/-- C10.  In the labjack variant the whole stimulus tuple (target letter,
target position, end symbol, distractor stream) is a function of the
participant ID, the stringified stimulus size, and the `require_response`
flag alone (via the seed `hash(pid + str(size) + str(require_response)) %
2**32`): the other per-trial arguments, different from trial to trial, do not
influence it, so any two trials sharing those three inputs (within one
process, where `hash` and the seeded `RandomState` draw stream agree) produce
identical stimuli. -/
theorem labjack_trial_deterministic (hash : String → ℤ) (rng : ℕ → ℕ → ℕ)
    (pid size : String) (rr : Bool) (d1 d2 : ℕ) (e1 e2 : ℚ) (fuel : ℕ) :
    labjackRunTrial hash rng pid size d1 rr e1 fuel =
      labjackRunTrial hash rng pid size d2 rr e2 fuel := rfl

end VisualAcuity
